import Mathlib

/-!
Verification of the RSS2Telegram pipeline (src/rss2telegram_bot.py) via a
shallow embedding. External effects (the judgment service, HTTP fetches,
the Telegram API, the wall clock, faults of the SQLite layer) are resolved
by an environment supplied to each function; the control flow, the reply
parsing, the retry loop, the store operations and the scheduler loop are
translated directly from the source. Traces of performed steps make the
per-entry behaviour of the orchestrator observable.
-/

/-- One persisted row of the `articles` table (setup_database): `link` is
UNIQUE; `datetime` is the CURRENT_TIMESTAMP at insert, modelled as seconds. -/
structure Article where
  link : String
  title : String
  keywords : String
  telegram_link : Option String
  datetime : Int
deriving Repr, DecidableEq

/-- The articles table, rows in insertion order. -/
abbrev DB := List Article

/-- save_article_to_db: INSERT the row; on the UNIQUE(link) violation the
sqlite3.IntegrityError is caught and the call is a silent no-op. -/
def save_article_to_db (db : DB) (now : Int) (link title keywords : String)
    (telegram_link : Option String) : DB :=
  if db.any (fun a => a.link == link) then
    db
  else
    db ++ [⟨link, title, keywords, telegram_link, now⟩]

/-- Seconds in timedelta(days=7). -/
def retentionSeconds : Int := 7 * 24 * 60 * 60

/-- cleanup_old_articles: DELETE FROM articles WHERE datetime < now - 7 days;
a row survives exactly when its datetime is not strictly below the cutoff. -/
def cleanup_old_articles (db : DB) (now : Int) : DB :=
  db.filter (fun a => !(a.datetime < now - retentionSeconds : Bool))

/-- Python str.strip on the character list: drop whitespace at both ends. -/
def stripChars (cs : List Char) : List Char :=
  ((cs.dropWhile Char.isWhitespace).reverse.dropWhile Char.isWhitespace).reverse

/-- Python str.strip. -/
def pyStrip (s : String) : String := ⟨stripChars s.data⟩

/-- Python str.lower. -/
def pyLower (s : String) : String := ⟨s.data.map Char.toLower⟩

/-- Python str.splitlines restricted to the newline separator. -/
def splitNewlines : List Char → List (List Char)
  | [] => [[]]
  | c :: cs =>
    match splitNewlines cs with
    | [] => [[c]]
    | l :: ls => if c == '\n' then [] :: l :: ls else (c :: l) :: ls

/-- The line normalisation inside parse_html of clean_html: split into lines,
strip each, drop blank ones, join with single newlines. -/
def normalizeLines (text : String) : String :=
  ⟨List.intercalate ['\n']
    (((splitNewlines text.data).map stripChars).filter (fun l => !l.isEmpty))⟩

/-- clean_html: the BeautifulSoup get_text outcome is environment-resolved;
a parse exception or the 5-second timeout yields the empty string, a
successful parse yields the normalised text. -/
def clean_html (parseOutcome : Option String) : String :=
  match parseOutcome with
  | none => ""
  | some text => normalizeLines text

/-- is_title_similar_with_chatgpt: on a service reply, strip + lowercase and
compare with the affirmative token; on a service exception return None. -/
def is_title_similar_with_chatgpt (new_title : String) (existing_titles : List String)
    (serviceReply : Option String) : Option Bool :=
  match new_title, existing_titles, serviceReply with
  | _, _, some reply => some (pyLower (pyStrip reply) == "yes")
  | _, _, none => none

/-- filter_article: same reply contract; the prompt carries the first 3000
characters of the cleaned text, the reply is stripped, lowercased and
compared with the affirmative token; an exception yields None. -/
def filter_article (cleaned_text : String) (link : String)
    (serviceReply : Option String) : Option Bool :=
  match cleaned_text, link, serviceReply with
  | _, _, some reply => some (pyLower (pyStrip reply) == "yes")
  | _, _, none => none

/-- Python truthiness of an optional string: None and the empty string are
falsy. -/
def truthyOpt : Option String → Bool
  | none => false
  | some s => !(s == "")

/-- The permalink built on a successful send: CHANNEL_ID with dashes removed,
then the message id. -/
def telegramMessageLink (channelId : String) (messageId : Nat) : String :=
  "https://t.me/" ++ (⟨channelId.data.filter (fun c => !(c == '-'))⟩ : String)
    ++ "/" ++ toString messageId

/-- One observable step performed while processing an entry: a service call,
a page fetch, a Telegram send attempt (photo or text), the fixed inter-retry
sleep, and the store insert. -/
inductive Step where
  | noveltyCall (title : String)
  | fetch (link : String)
  | filterCall (text : String)
  | generateCall (text : String)
  | imageCall
  | sendPhoto (attempt : Nat)
  | sendText (attempt : Nat)
  | sleep (seconds : Nat)
  | insert (link : String)
deriving Repr, DecidableEq

/-- generate_content: a blank text is rejected before any service call; a
service reply is stripped and returned, an exception yields None; the trace
records whether the generation service was actually called. -/
def generate_content (cleaned_text : String) (serviceReply : Option String) :
    Option String × List Step :=
  if pyStrip cleaned_text == "" then
    (none, [])
  else
    match serviceReply with
    | some reply => (some (pyStrip reply), [Step.generateCall cleaned_text])
    | none => (none, [Step.generateCall cleaned_text])

/-- The kind of send a publish attempt performs: send_photo when photo_url is
truthy, send_message otherwise. -/
def attemptStep (photo_url : Option String) (attempt : Nat) : Step :=
  if truthyOpt photo_url then Step.sendPhoto attempt else Step.sendText attempt

/-- Result of publish_to_telegram together with the trace of its attempts
and sleeps. -/
structure PublishTrace where
  result : Option String
  steps : List Step
deriving Repr, DecidableEq

/-- The retry loop body of publish_to_telegram over the remaining attempt
indices: a successful send returns the permalink at once; a failed send is
followed by the unconditional time.sleep(5) and the next attempt. -/
def publishAttempts (send : Nat → Option Nat) (photo_url : Option String)
    (channelId : String) : List Nat → PublishTrace
  | [] => ⟨none, []⟩
  | k :: rest =>
    match send k with
    | some messageId =>
        ⟨some (telegramMessageLink channelId messageId), [attemptStep photo_url k]⟩
    | none =>
        let r := publishAttempts send photo_url channelId rest
        ⟨r.result, attemptStep photo_url k :: Step.sleep 5 :: r.steps⟩

/-- publish_to_telegram: for attempt in range(3), send (photo when truthy,
else text); return the permalink on success, None after the loop. The post
body does not influence control flow. -/
def publish_to_telegram (post : String) (send : Nat → Option Nat)
    (photo_url : Option String) (channelId : String) : PublishTrace :=
  match post with
  | _ => publishAttempts send photo_url channelId [0, 1, 2]

/-- A feed entry: the fields the orchestrator reads. -/
structure Entry where
  link : String
  title : String
deriving Repr, DecidableEq

/-- Environment resolving the external effects met while processing one
entry: the three service calls (None models a raised exception), the page
fetch (None models a requests exception), the parse outcome of the extractor,
the result of the image resolver, the outcome of each Telegram send attempt, and
whether the store INSERT raises a non-IntegrityError fault. -/
structure EntryEnv where
  noveltyReply : Option String
  fetchPage : Option String
  parseOutcome : Option String
  filterReply : Option String
  summaryReply : Option String
  imageResult : Option String
  send : Nat → Option Nat
  insertFault : Bool

/-- New store state and performed steps after one entry. -/
structure EntryResult where
  db : DB
  steps : List Step
deriving Repr, DecidableEq

/-- The tail of the per-entry body of process_rss_feed, from requests.get
onward: fetch (a requests exception is caught at the entry boundary),
clean_html, filter_article (only a True result proceeds), generate_content
(falsy None or empty post skips), extract_main_image, publish_to_telegram,
and the save only under a truthy telegram_link; an insert fault is caught
at the entry boundary after the publication. Steps are relative to this
start of this stage. -/
def entry_after_fetch (env : EntryEnv) (e : Entry) (db : DB) (now : Int)
    (channelId : String) : EntryResult :=
  match env.fetchPage with
  | none => ⟨db, [Step.fetch e.link]⟩
  | some _html =>
    let cleaned_text := clean_html env.parseOutcome
    let fsteps := [Step.fetch e.link, Step.filterCall cleaned_text]
    match filter_article cleaned_text e.link env.filterReply with
    | some true =>
      let gen := generate_content cleaned_text env.summaryReply
      match gen.1 with
      | none => ⟨db, fsteps ++ gen.2⟩
      | some post =>
        if post == "" then
          ⟨db, fsteps ++ gen.2⟩
        else
          let photo_url := env.imageResult
          let pub := publish_to_telegram post env.send photo_url channelId
          let steps := fsteps ++ gen.2 ++ [Step.imageCall] ++ pub.steps
          match pub.result with
          | none => ⟨db, steps⟩
          | some telegram_link =>
            if telegram_link == "" then
              ⟨db, steps⟩
            else if env.insertFault then
              ⟨db, steps ++ [Step.insert e.link]⟩
            else
              ⟨save_article_to_db db now e.link e.title cleaned_text
                 (some telegram_link),
               steps ++ [Step.insert e.link]⟩
    | _ => ⟨db, fsteps⟩

/-- The per-entry body of process_rss_feed: link dedup via SELECT, the
novelty check (a falsy None proceeds, exactly like a False), then the
fetch-onward tail of the body. -/
def process_entry (env : EntryEnv) (e : Entry) (existing_titles : List String)
    (db : DB) (now : Int) (channelId : String) : EntryResult :=
  if db.any (fun a => a.link == e.link) then
    ⟨db, []⟩
  else
    match is_title_similar_with_chatgpt e.title existing_titles env.noveltyReply with
    | some true => ⟨db, [Step.noveltyCall e.title]⟩
    | _ =>
      let r := entry_after_fetch env e db now channelId
      ⟨r.db, Step.noveltyCall e.title :: r.steps⟩

/-- process_rss_feed over the entries of one feed: the existing-titles
snapshot is taken once, then each entry is processed in order against the
evolving store. -/
def process_rss_feed (envs : Entry → EntryEnv) (entries : List Entry)
    (existing_titles : List String) (db : DB) (now : Int)
    (channelId : String) : DB :=
  entries.foldl (fun d e => (process_entry (envs e) e existing_titles d now channelId).db) db

/-- Is a step a Telegram delivery attempt (photo or text)? -/
def isAttempt : Step → Bool
  | Step.sendPhoto _ => true
  | Step.sendText _ => true
  | _ => false

/-- Is a step a store insert? -/
def isInsert : Step → Bool
  | Step.insert _ => true
  | _ => false

/-- Where, if anywhere, an exception escapes a cycle of the main loop: the
feed-processing pass or the cleanup sweep (each caught by the try of the
while body). -/
inductive CycleOutcome where
  | ok
  | raisedDuringFeeds
  | raisedDuringCleanup
deriving Repr, DecidableEq

/-- One observable step of the scheduler loop. -/
inductive SchedStep where
  | beginCycle (i : Nat)
  | processFeeds
  | cleanup
  | waitNextHour
  | raised
deriving Repr, DecidableEq

/-- One iteration of the while body of main: feeds, cleanup, then
wait_until_next_hour all inside the try; an exception abandons the rest of
the body, including the wait. -/
def mainIteration (i : Nat) : CycleOutcome → List SchedStep
  | CycleOutcome.ok =>
      [SchedStep.beginCycle i, SchedStep.processFeeds, SchedStep.cleanup,
       SchedStep.waitNextHour]
  | CycleOutcome.raisedDuringFeeds =>
      [SchedStep.beginCycle i, SchedStep.processFeeds, SchedStep.raised]
  | CycleOutcome.raisedDuringCleanup =>
      [SchedStep.beginCycle i, SchedStep.processFeeds, SchedStep.cleanup,
       SchedStep.raised]

/-- The while True loop of main over a finite prefix of cycle outcomes. -/
def mainLoopGo : Nat → List CycleOutcome → List SchedStep
  | _, [] => []
  | i, c :: cs => mainIteration i c ++ mainLoopGo (i + 1) cs

/-- main: wait_until_next_hour once before the loop, then the cycles. -/
def mainTrace (cs : List CycleOutcome) : List SchedStep :=
  SchedStep.waitNextHour :: mainLoopGo 0 cs

/-- The publish outcome observed while processing an entry, independent of the
generated post body. -/
def entryPublish (env : EntryEnv) (channelId : String) : PublishTrace :=
  publishAttempts env.send env.imageResult channelId [0, 1, 2]

/-- Sample entry used by concrete witnesses. -/
def entryA : Entry := ⟨"https://a/1", "X launches Y"⟩

/-- Environment of a fully successful run: novelty no, fetch and parse
succeed, relevance yes, generation succeeds, no image, first send succeeds. -/
def envHappy : EntryEnv :=
  { noveltyReply := some "No", fetchPage := some "<html>x", parseOutcome := some " Body text ",
    filterReply := some " Yes ", summaryReply := some "Post body", imageResult := none,
    send := fun _ => some 42, insertFault := false }

/-- Environment whose novelty service call raises; everything later would
succeed except that every send fails. -/
def envNoveltyDown : EntryEnv :=
  { envHappy with noveltyReply := none, send := fun _ => none }

/-- Environment whose extraction parse fails, so the cleaned text is empty. -/
def envEmptyExtract : EntryEnv :=
  { envHappy with parseOutcome := none }

/-- Environment with a resolved image whose photo delivery always fails. -/
def envPhotoFail : EntryEnv :=
  { envHappy with imageResult := some "https://a/img.png", send := fun _ => none }

/-- Environment whose sends all fail (no image). -/
def envPublishFail : EntryEnv :=
  { envHappy with send := fun _ => none }

/-- Environment whose store insert raises a non-IntegrityError fault after a
successful publication. -/
def envInsertFault : EntryEnv :=
  { envHappy with insertFault := true }

/-- Environment whose novelty service answers yes. -/
def envNovYes : EntryEnv :=
  { envHappy with noveltyReply := some "Yes" }

/-- Environment whose relevance service answers no. -/
def envFilterNo : EntryEnv :=
  { envHappy with filterReply := some "no" }

/-- The fetch and relevance-call steps common to the post-fetch branches. -/
def fetchSteps (env : EntryEnv) (e : Entry) : List Step :=
  [Step.fetch e.link, Step.filterCall (clean_html env.parseOutcome)]

/-- The generation outcome observed while processing an entry. -/
def entryGen (env : EntryEnv) : Option String × List Step :=
  generate_content (clean_html env.parseOutcome) env.summaryReply

theorem attemptStep_isAttempt (photo_url : Option String) (k : Nat) :
    isAttempt (attemptStep photo_url k) = true := by
  unfold attemptStep
  split <;> rfl

theorem attemptStep_not_insert (photo_url : Option String) (k : Nat) :
    isInsert (attemptStep photo_url k) = false := by
  unfold attemptStep
  split <;> rfl

theorem publishAttempts_steps_shape (send : Nat → Option Nat) (photo_url : Option String)
    (channelId : String) (ks : List Nat) :
    ∀ s ∈ (publishAttempts send photo_url channelId ks).steps,
      (∃ k, s = attemptStep photo_url k) ∨ s = Step.sleep 5 := by
  induction ks with
  | nil => intro s hs; simp [publishAttempts] at hs
  | cons k rest ih =>
    intro s hs
    simp only [publishAttempts] at hs
    cases hsend : send k with
    | some m =>
      rw [hsend] at hs
      simp only [List.mem_singleton] at hs
      exact Or.inl ⟨k, hs⟩
    | none =>
      rw [hsend] at hs
      simp only [List.mem_cons] at hs
      rcases hs with h | h | h
      · exact Or.inl ⟨k, h⟩
      · exact Or.inr h
      · exact ih s h

theorem publishAttempts_result_none (send : Nat → Option Nat) (photo_url : Option String)
    (channelId : String) (ks : List Nat) (h : ∀ k ∈ ks, send k = none) :
    (publishAttempts send photo_url channelId ks).result = none := by
  induction ks with
  | nil => rfl
  | cons k rest ih =>
    simp only [publishAttempts]
    rw [h k (List.mem_cons_self k rest)]
    exact ih (fun j hj => h j (List.mem_cons_of_mem k hj))

theorem generate_content_steps_shape (cleaned_text : String) (serviceReply : Option String) :
    (generate_content cleaned_text serviceReply).2 = [] ∨
    (generate_content cleaned_text serviceReply).2 = [Step.generateCall cleaned_text] := by
  unfold generate_content
  split
  · exact Or.inl rfl
  · split <;> exact Or.inr rfl

/-- C6: the history-store insert is idempotent per link: when a record with
the given link already exists the insert is a silent no-op leaving the store
unchanged, and two inserts of the same link into a store without it leave
exactly one record for that link, the one written first. -/
theorem store_insert_idempotent (db : DB) (now now2 : Int)
    (link title keywords title2 keywords2 : String) (tl tl2 : Option String) :
    (db.any (fun a => a.link == link) = true →
       save_article_to_db db now link title keywords tl = db) ∧
    (db.countP (fun a => a.link == link) = 0 →
       save_article_to_db (save_article_to_db db now link title keywords tl)
           now2 link title2 keywords2 tl2 =
         db ++ [⟨link, title, keywords, tl, now⟩] ∧
       (save_article_to_db (save_article_to_db db now link title keywords tl)
           now2 link title2 keywords2 tl2).countP (fun a => a.link == link) = 1) := by
  constructor
  · intro h
    simp [save_article_to_db, h]
  · intro h
    have hany : db.any (fun a => a.link == link) = false := by
      rw [List.any_eq_false]
      intro a ha
      have := List.countP_eq_zero.mp h a ha
      simpa using this
    have h1 : save_article_to_db db now link title keywords tl =
        db ++ [⟨link, title, keywords, tl, now⟩] := by
      simp [save_article_to_db, hany]
    have h2 : (db ++ [(⟨link, title, keywords, tl, now⟩ : Article)]).any
        (fun a => a.link == link) = true := by
      simp
    constructor
    · rw [h1]
      simp [save_article_to_db, h2]
    · rw [h1]
      simp [save_article_to_db, h2, List.countP_append, h]

/-- Witness for C6 at a concrete store. -/
theorem store_insert_idempotent_witness :
    save_article_to_db
        (save_article_to_db [] 10 "https://a/1" "T" "K" (some "L"))
        20 "https://a/1" "T2" "K2" (some "L2") =
      [⟨"https://a/1", "T", "K", some "L", 10⟩] ∧
    (save_article_to_db
        (save_article_to_db [] 10 "https://a/1" "T" "K" (some "L"))
        20 "https://a/1" "T2" "K2" (some "L2")).countP
      (fun a => a.link == "https://a/1") = 1 :=
  (store_insert_idempotent [] 10 20 "https://a/1" "T" "K" "T2" "K2"
      (some "L") (some "L2")).2 (by decide)

/-- C7: the eviction sweep removes exactly the records whose recorded
timestamp is strictly older than 7 days before the eviction call, and keeps
every record whose timestamp is 7 days old or newer. -/
theorem cleanup_exact_cutoff (db : DB) (now : Int) (a : Article) (h : a ∈ db) :
    a ∈ cleanup_old_articles db now ↔ ¬(a.datetime < now - retentionSeconds) := by
  simp [cleanup_old_articles, List.mem_filter, h]

/-- Witness for C7: a record exactly 7 days old survives, one a second older
is evicted. -/
theorem cleanup_exact_cutoff_witness :
    ((⟨"https://a/1", "T", "K", some "L", 0⟩ : Article) ∈
        cleanup_old_articles
          [⟨"https://a/1", "T", "K", some "L", 0⟩,
           ⟨"https://a/2", "U", "K", some "L", -1⟩] 604800 ↔
      ¬((0 : Int) < 604800 - retentionSeconds)) ∧
    ((⟨"https://a/2", "U", "K", some "L", -1⟩ : Article) ∈
        cleanup_old_articles
          [⟨"https://a/1", "T", "K", some "L", 0⟩,
           ⟨"https://a/2", "U", "K", some "L", -1⟩] 604800 ↔
      ¬((-1 : Int) < 604800 - retentionSeconds)) :=
  ⟨cleanup_exact_cutoff _ 604800 _ (by decide),
   cleanup_exact_cutoff _ 604800 _ (by decide)⟩

/-- C5: the publisher makes exactly 3 delivery attempts when every send
fails, each failed attempt followed by an unconditional 5-second sleep, and
then reports failure; when the send first succeeds at attempt k it stops
right there and returns the permalink. -/
theorem publisher_retry_contract (post : String) (send : Nat → Option Nat)
    (photo_url : Option String) (channelId : String) :
    ((send 0 = none ∧ send 1 = none ∧ send 2 = none) →
       publish_to_telegram post send photo_url channelId =
         ⟨none, [attemptStep photo_url 0, Step.sleep 5, attemptStep photo_url 1,
                 Step.sleep 5, attemptStep photo_url 2, Step.sleep 5]⟩) ∧
    (∀ m, send 0 = some m →
       publish_to_telegram post send photo_url channelId =
         ⟨some (telegramMessageLink channelId m), [attemptStep photo_url 0]⟩) ∧
    (∀ m, send 0 = none → send 1 = some m →
       publish_to_telegram post send photo_url channelId =
         ⟨some (telegramMessageLink channelId m),
          [attemptStep photo_url 0, Step.sleep 5, attemptStep photo_url 1]⟩) ∧
    (∀ m, send 0 = none → send 1 = none → send 2 = some m →
       publish_to_telegram post send photo_url channelId =
         ⟨some (telegramMessageLink channelId m),
          [attemptStep photo_url 0, Step.sleep 5, attemptStep photo_url 1,
           Step.sleep 5, attemptStep photo_url 2]⟩) := by
  refine ⟨?_, ?_, ?_, ?_⟩
  · rintro ⟨h0, h1, h2⟩
    simp [publish_to_telegram, publishAttempts, h0, h1, h2]
  · intro m h0
    simp [publish_to_telegram, publishAttempts, h0]
  · intro m h0 h1
    simp [publish_to_telegram, publishAttempts, h0, h1]
  · intro m h0 h1 h2
    simp [publish_to_telegram, publishAttempts, h0, h1, h2]

/-- Witness for C5: a permanently failing photo-less delivery, and a photo
delivery succeeding on the third attempt. -/
theorem publisher_retry_contract_witness :
    publish_to_telegram "post" (fun _ => none) none "@chan" =
      ⟨none, [Step.sendText 0, Step.sleep 5, Step.sendText 1, Step.sleep 5,
              Step.sendText 2, Step.sleep 5]⟩ ∧
    publish_to_telegram "post" (fun k => if k == 2 then some 7 else none)
        (some "https://a/img.png") "@chan" =
      ⟨some "https://t.me/@chan/7",
       [Step.sendPhoto 0, Step.sleep 5, Step.sendPhoto 1, Step.sleep 5,
        Step.sendPhoto 2]⟩ := by
  constructor
  · have h := (publisher_retry_contract "post" (fun _ => none) none "@chan").1
      ⟨rfl, rfl, rfl⟩
    rw [h]
    decide
  · have h := (publisher_retry_contract "post"
        (fun k => if k == 2 then some 7 else none)
        (some "https://a/img.png") "@chan").2.2.2 7 rfl rfl rfl
    rw [h]
    decide

theorem publish_to_telegram_entryPublish (post : String) (env : EntryEnv) (cid : String) :
    publish_to_telegram post env.send env.imageResult cid = entryPublish env cid := rfl

theorem entry_after_fetch_cases (env : EntryEnv) (e : Entry) (db : DB)
    (now : Int) (cid : String) :
    (env.fetchPage = none ∧
       entry_after_fetch env e db now cid = ⟨db, [Step.fetch e.link]⟩) ∨
    (env.fetchPage ≠ none ∧
     ((filter_article (clean_html env.parseOutcome) e.link env.filterReply ≠ some true ∧
         entry_after_fetch env e db now cid = ⟨db, fetchSteps env e⟩) ∨
      (filter_article (clean_html env.parseOutcome) e.link env.filterReply = some true ∧
       (((entryGen env).1 = none ∧
           entry_after_fetch env e db now cid =
             ⟨db, fetchSteps env e ++ (entryGen env).2⟩) ∨
        ((entryGen env).1 = some "" ∧
           entry_after_fetch env e db now cid =
             ⟨db, fetchSteps env e ++ (entryGen env).2⟩) ∨
        ((∃ post, (entryGen env).1 = some post ∧ post ≠ "") ∧
         (((entryPublish env cid).result = none ∧
             entry_after_fetch env e db now cid =
               ⟨db, fetchSteps env e ++ (entryGen env).2 ++ [Step.imageCall]
                    ++ (entryPublish env cid).steps⟩) ∨
          (∃ tlink, (entryPublish env cid).result = some tlink ∧
           ((tlink = "" ∧
               entry_after_fetch env e db now cid =
                 ⟨db, fetchSteps env e ++ (entryGen env).2 ++ [Step.imageCall]
                      ++ (entryPublish env cid).steps⟩) ∨
            (tlink ≠ "" ∧ env.insertFault = true ∧
               entry_after_fetch env e db now cid =
                 ⟨db, fetchSteps env e ++ (entryGen env).2 ++ [Step.imageCall]
                      ++ (entryPublish env cid).steps ++ [Step.insert e.link]⟩) ∨
            (tlink ≠ "" ∧ env.insertFault = false ∧
               entry_after_fetch env e db now cid =
                 ⟨save_article_to_db db now e.link e.title
                    (clean_html env.parseOutcome) (some tlink),
                  fetchSteps env e ++ (entryGen env).2 ++ [Step.imageCall]
                      ++ (entryPublish env cid).steps ++ [Step.insert e.link]⟩))))))))) := by
  cases hfetch : env.fetchPage with
  | none => exact Or.inl ⟨rfl, by simp [entry_after_fetch, hfetch]⟩
  | some html =>
    refine Or.inr ⟨by simp [hfetch], ?_⟩
    cases hfil : filter_article (clean_html env.parseOutcome) e.link env.filterReply with
    | none =>
      exact Or.inl ⟨by simp [hfil], by
        simp [entry_after_fetch, hfetch, hfil, fetchSteps]⟩
    | some b =>
      cases b with
      | false =>
        exact Or.inl ⟨by simp [hfil], by
          simp [entry_after_fetch, hfetch, hfil, fetchSteps]⟩
      | true =>
        refine Or.inr ⟨rfl, ?_⟩
        cases hgen : (generate_content (clean_html env.parseOutcome) env.summaryReply).1 with
        | none =>
          exact Or.inl ⟨hgen, by
            simp [entry_after_fetch, hfetch, hfil, hgen, fetchSteps, entryGen]⟩
        | some post =>
          cases hpostEmpty : (post == "") with
          | true =>
            have hpost : post = "" := by simpa using hpostEmpty
            subst hpost
            refine Or.inr (Or.inl ⟨hgen, ?_⟩)
            simp [entry_after_fetch, hfetch, hfil, hgen, fetchSteps, entryGen]
          | false =>
            have hpostNe : post ≠ "" := by simpa using hpostEmpty
            refine Or.inr (Or.inr ⟨⟨post, hgen, hpostNe⟩, ?_⟩)
            cases hpub : (entryPublish env cid).result with
            | none =>
              refine Or.inl ⟨rfl, ?_⟩
              simp [entry_after_fetch, hfetch, hfil, hgen, hpostEmpty, fetchSteps,
                    entryGen, publish_to_telegram_entryPublish, hpub]
            | some tlink =>
              refine Or.inr ⟨tlink, rfl, ?_⟩
              cases htl : (tlink == "") with
              | true =>
                have h1 : tlink = "" := by simpa using htl
                refine Or.inl ⟨h1, ?_⟩
                simp [entry_after_fetch, hfetch, hfil, hgen, hpostEmpty, fetchSteps,
                      entryGen, publish_to_telegram_entryPublish, hpub, htl]
              | false =>
                have h1 : tlink ≠ "" := by simpa using htl
                cases hfault : env.insertFault with
                | true =>
                  refine Or.inr (Or.inl ⟨h1, rfl, ?_⟩)
                  simp [entry_after_fetch, hfetch, hfil, hgen, hpostEmpty, fetchSteps,
                        entryGen, publish_to_telegram_entryPublish, hpub, htl, hfault]
                | false =>
                  refine Or.inr (Or.inr ⟨h1, rfl, ?_⟩)
                  simp [entry_after_fetch, hfetch, hfil, hgen, hpostEmpty, fetchSteps,
                        entryGen, publish_to_telegram_entryPublish, hpub, htl, hfault]

theorem process_entry_cases (env : EntryEnv) (e : Entry) (titles : List String)
    (db : DB) (now : Int) (cid : String) :
    (db.any (fun a => a.link == e.link) = true ∧
       process_entry env e titles db now cid = ⟨db, []⟩) ∨
    (db.any (fun a => a.link == e.link) = false ∧
       is_title_similar_with_chatgpt e.title titles env.noveltyReply = some true ∧
       process_entry env e titles db now cid = ⟨db, [Step.noveltyCall e.title]⟩) ∨
    (db.any (fun a => a.link == e.link) = false ∧
       is_title_similar_with_chatgpt e.title titles env.noveltyReply ≠ some true ∧
       process_entry env e titles db now cid =
         ⟨(entry_after_fetch env e db now cid).db,
          Step.noveltyCall e.title :: (entry_after_fetch env e db now cid).steps⟩) := by
  cases hdedup : db.any (fun a => a.link == e.link) with
  | true => exact Or.inl ⟨rfl, by simp [process_entry, hdedup]⟩
  | false =>
    cases hnov : is_title_similar_with_chatgpt e.title titles env.noveltyReply with
    | none =>
      refine Or.inr (Or.inr ⟨rfl, by simp [hnov], ?_⟩)
      simp [process_entry, hdedup, hnov]
    | some b =>
      cases b with
      | true =>
        exact Or.inr (Or.inl ⟨rfl, rfl, by simp [process_entry, hdedup, hnov]⟩)
      | false =>
        refine Or.inr (Or.inr ⟨rfl, by simp [hnov], ?_⟩)
        simp [process_entry, hdedup, hnov]

theorem generate_content_blank (serviceReply : Option String) :
    generate_content "" serviceReply = (none, []) := rfl

theorem entry_db_unchanged (env : EntryEnv) (e : Entry) (titles : List String)
    (db : DB) (now : Int) (cid : String)
    (h : (entryPublish env cid).result = none) :
    (process_entry env e titles db now cid).db = db := by
  rcases process_entry_cases env e titles db now cid with
    ⟨hd, hpe⟩ | ⟨hd, hn, hpe⟩ | ⟨hd, hn, hpe⟩
  · simp [hpe]
  · simp [hpe]
  · rcases entry_after_fetch_cases env e db now cid with
      ⟨hf, heq⟩ |
      ⟨hf, ⟨hfil, heq⟩ |
           ⟨hfil, ⟨hg, heq⟩ | ⟨hg, heq⟩ |
                  ⟨hpost, ⟨hpub, heq⟩ |
                          ⟨t, hpub, ⟨ht, heq⟩ | ⟨ht, hfault, heq⟩ | ⟨ht, hfault, heq⟩⟩⟩⟩⟩
    · simp [hpe, heq]
    · simp [hpe, heq]
    · simp [hpe, heq]
    · simp [hpe, heq]
    · simp [hpe, heq]
    · simp [hpe, heq]
    · simp [hpe, heq]
    · rw [h] at hpub
      simp at hpub

theorem entry_new_record (env : EntryEnv) (e : Entry) (titles : List String)
    (db : DB) (now : Int) (cid : String) :
    ∀ a, a ∈ (process_entry env e titles db now cid).db → a ∉ db →
      ∃ tlink, a.telegram_link = some tlink ∧
        (entryPublish env cid).result = some tlink := by
  intro a ha hna
  rcases process_entry_cases env e titles db now cid with
    ⟨hd, hpe⟩ | ⟨hd, hn, hpe⟩ | ⟨hd, hn, hpe⟩
  · rw [hpe] at ha; exact absurd ha hna
  · rw [hpe] at ha; exact absurd ha hna
  · rcases entry_after_fetch_cases env e db now cid with
      ⟨hf, heq⟩ |
      ⟨hf, ⟨hfil, heq⟩ |
           ⟨hfil, ⟨hg, heq⟩ | ⟨hg, heq⟩ |
                  ⟨hpost, ⟨hpub, heq⟩ |
                          ⟨t, hpub, ⟨ht, heq⟩ | ⟨ht, hfault, heq⟩ | ⟨ht, hfault, heq⟩⟩⟩⟩⟩
    · rw [hpe, heq] at ha; exact absurd ha hna
    · rw [hpe, heq] at ha; exact absurd ha hna
    · rw [hpe, heq] at ha; exact absurd ha hna
    · rw [hpe, heq] at ha; exact absurd ha hna
    · rw [hpe, heq] at ha; exact absurd ha hna
    · rw [hpe, heq] at ha; exact absurd ha hna
    · rw [hpe, heq] at ha; exact absurd ha hna
    · rw [hpe, heq] at ha
      have ha2 : a ∈ db ++ [(⟨e.link, e.title, clean_html env.parseOutcome,
          some t, now⟩ : Article)] := by
        simpa [save_article_to_db, hd] using ha
      rcases List.mem_append.mp ha2 with hmem | hmem
      · exact absurd hmem hna
      · have : a = ⟨e.link, e.title, clean_html env.parseOutcome, some t, now⟩ := by
          simpa using hmem
        subst this
        exact ⟨t, rfl, hpub⟩

theorem entry_novelty_first (env : EntryEnv) (e : Entry) (titles : List String)
    (db : DB) (now : Int) (cid : String)
    (h : db.any (fun a => a.link == e.link) = false) :
    Step.noveltyCall e.title ∈ (process_entry env e titles db now cid).steps := by
  rcases process_entry_cases env e titles db now cid with
    ⟨hd, hpe⟩ | ⟨hd, hn, hpe⟩ | ⟨hd, hn, hpe⟩
  · rw [hd] at h; cases h
  · simp [hpe]
  · simp [hpe]

theorem entryGen_steps_shape (env : EntryEnv) :
    (entryGen env).2 = [] ∨
    (entryGen env).2 = [Step.generateCall (clean_html env.parseOutcome)] :=
  generate_content_steps_shape _ _

theorem entryPublish_steps_shape (env : EntryEnv) (cid : String) :
    ∀ s ∈ (entryPublish env cid).steps,
      (∃ k, s = attemptStep env.imageResult k) ∨ s = Step.sleep 5 :=
  publishAttempts_steps_shape env.send env.imageResult cid [0, 1, 2]

theorem pubstep_classified (env : EntryEnv) (cid : String) (s : Step)
    (hpm : s ∈ (entryPublish env cid).steps) (P : Prop) :
    (isAttempt s = true → ∃ k, s = attemptStep env.imageResult k) ∧
    (isInsert s = true → P) := by
  rcases entryPublish_steps_shape env cid s hpm with ⟨k, rfl⟩ | rfl
  · refine ⟨fun _ => ⟨k, rfl⟩, fun hins => ?_⟩
    simp [attemptStep_not_insert] at hins
  · exact ⟨by simp [isAttempt], by simp [isInsert]⟩

theorem insert_not_mem_pubsteps (env : EntryEnv) (cid : String) (l : String) :
    Step.insert l ∉ (entryPublish env cid).steps := by
  intro hpm
  rcases entryPublish_steps_shape env cid _ hpm with ⟨k, hk⟩ | hk
  · have h2 := attemptStep_not_insert env.imageResult k
    rw [← hk] at h2
    simp [isInsert] at h2
  · cases hk

theorem entry_steps_classification (env : EntryEnv) (e : Entry)
    (titles : List String) (db : DB) (now : Int) (cid : String) :
    ∀ s ∈ (process_entry env e titles db now cid).steps,
      (isAttempt s = true → ∃ k, s = attemptStep env.imageResult k) ∧
      (isInsert s = true → s = Step.insert e.link ∧
         ∃ tlink, (entryPublish env cid).result = some tlink) := by
  intro s hs
  rcases process_entry_cases env e titles db now cid with
    ⟨hd, hpe⟩ | ⟨hd, hn, hpe⟩ | ⟨hd, hn, hpe⟩
  · rw [hpe] at hs; simp at hs
  · rw [hpe] at hs
    simp at hs
    subst hs
    simp [isAttempt, isInsert]
  · rw [hpe] at hs
    rcases entry_after_fetch_cases env e db now cid with
      ⟨hf, heq⟩ |
      ⟨hf, ⟨hfil, heq⟩ |
           ⟨hfil, ⟨hg, heq⟩ | ⟨hg, heq⟩ |
                  ⟨hpost, ⟨hpub, heq⟩ |
                          ⟨t, hpub, ⟨ht, heq⟩ | ⟨ht, hfault, heq⟩ | ⟨ht, hfault, heq⟩⟩⟩⟩⟩
    · simp [heq] at hs
      rcases hs with rfl | rfl <;> simp [isAttempt, isInsert]
    · simp [heq, fetchSteps] at hs
      rcases hs with rfl | rfl | rfl <;> simp [isAttempt, isInsert]
    · rcases entryGen_steps_shape env with hg2 | hg2 <;> rw [hg2] at heq <;>
        simp [heq, fetchSteps] at hs
      · rcases hs with rfl | rfl | rfl <;> simp [isAttempt, isInsert]
      · rcases hs with rfl | rfl | rfl | rfl <;> simp [isAttempt, isInsert]
    · rcases entryGen_steps_shape env with hg2 | hg2 <;> rw [hg2] at heq <;>
        simp [heq, fetchSteps] at hs
      · rcases hs with rfl | rfl | rfl <;> simp [isAttempt, isInsert]
      · rcases hs with rfl | rfl | rfl | rfl <;> simp [isAttempt, isInsert]
    · rcases entryGen_steps_shape env with hg2 | hg2 <;> rw [hg2] at heq <;>
        simp [heq, fetchSteps] at hs
      · rcases hs with rfl | rfl | rfl | rfl | hpm
        · simp [isAttempt, isInsert]
        · simp [isAttempt, isInsert]
        · simp [isAttempt, isInsert]
        · simp [isAttempt, isInsert]
        · exact pubstep_classified env cid s hpm _
      · rcases hs with rfl | rfl | rfl | rfl | rfl | hpm
        · simp [isAttempt, isInsert]
        · simp [isAttempt, isInsert]
        · simp [isAttempt, isInsert]
        · simp [isAttempt, isInsert]
        · simp [isAttempt, isInsert]
        · exact pubstep_classified env cid s hpm _
    · rcases entryGen_steps_shape env with hg2 | hg2 <;> rw [hg2] at heq <;>
        simp [heq, fetchSteps] at hs
      · rcases hs with rfl | rfl | rfl | rfl | hpm
        · simp [isAttempt, isInsert]
        · simp [isAttempt, isInsert]
        · simp [isAttempt, isInsert]
        · simp [isAttempt, isInsert]
        · exact pubstep_classified env cid s hpm _
      · rcases hs with rfl | rfl | rfl | rfl | rfl | hpm
        · simp [isAttempt, isInsert]
        · simp [isAttempt, isInsert]
        · simp [isAttempt, isInsert]
        · simp [isAttempt, isInsert]
        · simp [isAttempt, isInsert]
        · exact pubstep_classified env cid s hpm _
    · rcases entryGen_steps_shape env with hg2 | hg2 <;> rw [hg2] at heq <;>
        simp [heq, fetchSteps] at hs
      · rcases hs with rfl | rfl | rfl | rfl | hpm | rfl
        · simp [isAttempt, isInsert]
        · simp [isAttempt, isInsert]
        · simp [isAttempt, isInsert]
        · simp [isAttempt, isInsert]
        · exact pubstep_classified env cid s hpm _
        · exact ⟨by simp [isAttempt], fun _ => ⟨rfl, t, hpub⟩⟩
      · rcases hs with rfl | rfl | rfl | rfl | rfl | hpm | rfl
        · simp [isAttempt, isInsert]
        · simp [isAttempt, isInsert]
        · simp [isAttempt, isInsert]
        · simp [isAttempt, isInsert]
        · simp [isAttempt, isInsert]
        · exact pubstep_classified env cid s hpm _
        · exact ⟨by simp [isAttempt], fun _ => ⟨rfl, t, hpub⟩⟩
    · rcases entryGen_steps_shape env with hg2 | hg2 <;> rw [hg2] at heq <;>
        simp [heq, fetchSteps] at hs
      · rcases hs with rfl | rfl | rfl | rfl | hpm | rfl
        · simp [isAttempt, isInsert]
        · simp [isAttempt, isInsert]
        · simp [isAttempt, isInsert]
        · simp [isAttempt, isInsert]
        · exact pubstep_classified env cid s hpm _
        · exact ⟨by simp [isAttempt], fun _ => ⟨rfl, t, hpub⟩⟩
      · rcases hs with rfl | rfl | rfl | rfl | rfl | hpm | rfl
        · simp [isAttempt, isInsert]
        · simp [isAttempt, isInsert]
        · simp [isAttempt, isInsert]
        · simp [isAttempt, isInsert]
        · simp [isAttempt, isInsert]
        · exact pubstep_classified env cid s hpm _
        · exact ⟨by simp [isAttempt], fun _ => ⟨rfl, t, hpub⟩⟩

theorem entry_insert_spec (env : EntryEnv) (e : Entry) (titles : List String)
    (db : DB) (now : Int) (cid : String) :
    Step.insert e.link ∈ (process_entry env e titles db now cid).steps →
    db.any (fun a => a.link == e.link) = false ∧
    (∃ tlink, (entryPublish env cid).result = some tlink ∧ tlink ≠ "") ∧
    (env.insertFault = true → (process_entry env e titles db now cid).db = db) := by
  intro hs
  rcases process_entry_cases env e titles db now cid with
    ⟨hd, hpe⟩ | ⟨hd, hn, hpe⟩ | ⟨hd, hn, hpe⟩
  · rw [hpe] at hs; simp at hs
  · rw [hpe] at hs; simp at hs
  · rw [hpe] at hs
    rcases entry_after_fetch_cases env e db now cid with
      ⟨hf, heq⟩ |
      ⟨hf, ⟨hfil, heq⟩ |
           ⟨hfil, ⟨hg, heq⟩ | ⟨hg, heq⟩ |
                  ⟨hpost, ⟨hpub, heq⟩ |
                          ⟨t, hpub, ⟨ht, heq⟩ | ⟨ht, hfault, heq⟩ | ⟨ht, hfault, heq⟩⟩⟩⟩⟩
    · simp [heq] at hs
    · simp [heq, fetchSteps] at hs
    · rcases entryGen_steps_shape env with hg2 | hg2 <;> rw [hg2] at heq <;>
        simp [heq, fetchSteps] at hs
    · rcases entryGen_steps_shape env with hg2 | hg2 <;> rw [hg2] at heq <;>
        simp [heq, fetchSteps] at hs
    · rcases entryGen_steps_shape env with hg2 | hg2 <;> rw [hg2] at heq <;>
        simp [heq, fetchSteps] at hs <;>
        exact absurd hs (insert_not_mem_pubsteps env cid e.link)
    · rcases entryGen_steps_shape env with hg2 | hg2 <;> rw [hg2] at heq <;>
        simp [heq, fetchSteps] at hs <;>
        exact absurd hs (insert_not_mem_pubsteps env cid e.link)
    · exact ⟨hd, ⟨t, hpub, ht⟩, fun _ => by simp [hpe, heq]⟩
    · refine ⟨hd, ⟨t, hpub, ht⟩, fun hft => ?_⟩
      rw [hfault] at hft
      cases hft

theorem mainLoopGo_begin_mem (cs : List CycleOutcome) : ∀ start j, j < cs.length →
    SchedStep.beginCycle (start + j) ∈ mainLoopGo start cs := by
  induction cs with
  | nil => intro start j hj; simp at hj
  | cons c rest ih =>
    intro start j hj
    cases j with
    | zero =>
      simp only [mainLoopGo, List.mem_append]
      exact Or.inl (by cases c <;> simp [mainIteration])
    | succ j2 =>
      simp only [mainLoopGo, List.mem_append]
      right
      have h2 : start + (j2 + 1) = (start + 1) + j2 := by omega
      rw [h2]
      exact ih (start + 1) j2 (by simpa using hj)

/-- C1 counterexample: with the novelty service call raising (reply None),
the orchestrator does not skip the entry: the page fetch and the relevance
classification are still performed, refuting the claim that a failed
novelty call skips before fetch. -/
theorem novelty_unknown_counterexample :
    is_title_similar_with_chatgpt entryA.title [] envNoveltyDown.noveltyReply = none ∧
    Step.fetch "https://a/1" ∈
      (process_entry envNoveltyDown entryA [] [] 0 "@chan").steps ∧
    Step.filterCall "Body text" ∈
      (process_entry envNoveltyDown entryA [] [] 0 "@chan").steps := by
  decide

/-- C1 corrected: a yes novelty verdict does skip the entry with no further
steps, but a failed novelty call (None, the unknown case) does not skip:
the falsy check lets processing fall through to the page fetch. -/
theorem novelty_gate_contract (env : EntryEnv) (e : Entry) (titles : List String)
    (db : DB) (now : Int) (cid : String)
    (hdedup : db.any (fun a => a.link == e.link) = false) :
    (is_title_similar_with_chatgpt e.title titles env.noveltyReply = some true →
       process_entry env e titles db now cid = ⟨db, [Step.noveltyCall e.title]⟩) ∧
    (env.noveltyReply = none →
       Step.fetch e.link ∈ (process_entry env e titles db now cid).steps) := by
  constructor
  · intro h
    simp [process_entry, hdedup, h]
  · intro h
    have hn : is_title_similar_with_chatgpt e.title titles env.noveltyReply = none := by
      simp [is_title_similar_with_chatgpt, h]
    rcases process_entry_cases env e titles db now cid with
      ⟨hd, hpe⟩ | ⟨hd, hnv, hpe⟩ | ⟨hd, hnv, hpe⟩
    · rw [hd] at hdedup; cases hdedup
    · rw [hn] at hnv; cases hnv
    · rw [hpe]
      rcases entry_after_fetch_cases env e db now cid with
        ⟨hf, heq⟩ |
        ⟨hf, ⟨hfil, heq⟩ |
             ⟨hfil, ⟨hg, heq⟩ | ⟨hg, heq⟩ |
                    ⟨hpost, ⟨hpub, heq⟩ |
                            ⟨t, hpub, ⟨ht, heq⟩ | ⟨ht, hfault, heq⟩ | ⟨ht, hfault, heq⟩⟩⟩⟩⟩ <;>
        simp [heq, fetchSteps]

/-- Witness for the corrected C1 at concrete environments. -/
theorem novelty_gate_contract_witness :
    process_entry envNovYes entryA [] [] 0 "@chan" =
      ⟨[], [Step.noveltyCall "X launches Y"]⟩ ∧
    Step.fetch "https://a/1" ∈
      (process_entry envNoveltyDown entryA [] [] 0 "@chan").steps :=
  ⟨(novelty_gate_contract envNovYes entryA [] [] 0 "@chan" rfl).1 (by decide),
   (novelty_gate_contract envNoveltyDown entryA [] [] 0 "@chan" rfl).2 rfl⟩

/-- C2 counterexample: a failed parse yields empty cleaned text, yet the
relevance classifier is invoked with that empty text — the entry is not
skipped at the fetch-and-extract stage. -/
theorem extraction_empty_counterexample :
    clean_html envEmptyExtract.parseOutcome = "" ∧
    Step.filterCall "" ∈
      (process_entry envEmptyExtract entryA [] [] 0 "@chan").steps := by
  decide

/-- C2 corrected: an entry whose extraction is empty is never published and
leaves no record, but it is not skipped before the relevance call: when
dedup, novelty and the fetch let it through, the classifier is invoked with
the empty text, and the entry is dropped at the relevance or generation
stage instead. -/
theorem extraction_empty_contract (env : EntryEnv) (e : Entry)
    (titles : List String) (db : DB) (now : Int) (cid : String)
    (hct : clean_html env.parseOutcome = "") :
    (process_entry env e titles db now cid).db = db ∧
    (∀ s ∈ (process_entry env e titles db now cid).steps,
       isAttempt s = false ∧ isInsert s = false) ∧
    (db.any (fun a => a.link == e.link) = false →
     is_title_similar_with_chatgpt e.title titles env.noveltyReply ≠ some true →
     env.fetchPage ≠ none →
     Step.filterCall "" ∈ (process_entry env e titles db now cid).steps) := by
  have hgen2 : entryGen env = (none, []) := by
    unfold entryGen
    rw [hct]
    exact generate_content_blank env.summaryReply
  rcases process_entry_cases env e titles db now cid with
    ⟨hd, hpe⟩ | ⟨hd, hn, hpe⟩ | ⟨hd, hn, hpe⟩
  · refine ⟨by simp [hpe], by simp [hpe], fun hd2 _ _ => ?_⟩
    rw [hd] at hd2; cases hd2
  · refine ⟨by simp [hpe], ?_, fun _ hn2 _ => absurd hn hn2⟩
    intro s hs
    rw [hpe] at hs
    simp at hs
    subst hs
    exact ⟨rfl, rfl⟩
  · rcases entry_after_fetch_cases env e db now cid with
      ⟨hf, heq⟩ |
      ⟨hf, ⟨hfil, heq⟩ |
           ⟨hfil, ⟨hg, heq⟩ | ⟨hg, heq⟩ |
                  ⟨hpost, hrest⟩⟩⟩
    · refine ⟨by simp [hpe, heq], ?_, fun _ _ hf2 => absurd hf hf2⟩
      intro s hs
      simp [hpe, heq] at hs
      rcases hs with rfl | rfl <;> exact ⟨rfl, rfl⟩
    · refine ⟨by simp [hpe, heq], ?_, ?_⟩
      · intro s hs
        simp [hpe, heq, fetchSteps] at hs
        rcases hs with rfl | rfl | rfl <;> exact ⟨rfl, rfl⟩
      · intro _ _ _
        simp [hpe, heq, fetchSteps, hct]
    · have hg2 : (entryGen env).2 = [] := by rw [hgen2]
      rw [hg2] at heq
      refine ⟨by simp [hpe, heq], ?_, ?_⟩
      · intro s hs
        simp [hpe, heq, fetchSteps] at hs
        rcases hs with rfl | rfl | rfl <;> exact ⟨rfl, rfl⟩
      · intro _ _ _
        simp [hpe, heq, fetchSteps, hct]
    · rw [hgen2] at hg
      simp at hg
    · rcases hpost with ⟨post, hp, _⟩
      rw [hgen2] at hp
      simp at hp

/-- Witness for the corrected C2 at a concrete environment. -/
theorem extraction_empty_contract_witness :
    (process_entry envEmptyExtract entryA [] [] 0 "@chan").db = [] ∧
    Step.filterCall "" ∈
      (process_entry envEmptyExtract entryA [] [] 0 "@chan").steps :=
  ⟨(extraction_empty_contract envEmptyExtract entryA [] [] 0 "@chan" rfl).1,
   (extraction_empty_contract envEmptyExtract entryA [] [] 0 "@chan" rfl).2.2 rfl
     (by decide) (by decide)⟩

/-- C3: a store record is written only after a successful publication: a
publish that returns no reference leaves the store unchanged, and any
record the entry adds carries exactly the published reference the publish
returned. -/
theorem publish_gates_persistence (env : EntryEnv) (e : Entry)
    (titles : List String) (db : DB) (now : Int) (cid : String) :
    ((entryPublish env cid).result = none →
       (process_entry env e titles db now cid).db = db) ∧
    (∀ a, a ∈ (process_entry env e titles db now cid).db → a ∉ db →
       ∃ tlink, a.telegram_link = some tlink ∧
         (entryPublish env cid).result = some tlink) :=
  ⟨fun h => entry_db_unchanged env e titles db now cid h,
   entry_new_record env e titles db now cid⟩

/-- Witness for C3: a failing publish persists nothing; a successful one
persists the returned permalink. -/
theorem publish_gates_persistence_witness :
    (process_entry envPublishFail entryA [] [] 0 "@chan").db = [] ∧
    (∃ tlink, (⟨"https://a/1", "X launches Y", "Body text",
          some "https://t.me/@chan/42", (100 : Int)⟩ : Article).telegram_link =
        some tlink ∧
      (entryPublish envHappy "@chan").result = some tlink) :=
  ⟨(publish_gates_persistence envPublishFail entryA [] [] 0 "@chan").1 (by decide),
   (publish_gates_persistence envHappy entryA [] [] 100 "@chan").2
     ⟨"https://a/1", "X launches Y", "Body text", some "https://t.me/@chan/42", 100⟩
     (by decide) (by decide)⟩

/-- C4: the relevance classifier accepts exactly the trimmed, lowercased
affirmative token (yes), maps any other textual reply to no and a service
failure to unknown (None); the orchestrator leaves the store unchanged and
performs no generation, delivery or insert step unless the verdict is
exactly yes — so unknown is never treated as yes. -/
theorem relevance_contract (env : EntryEnv) (e : Entry) (titles : List String)
    (db : DB) (now : Int) (cid : String) (text link reply : String) :
    (pyLower (pyStrip reply) = "yes" →
       filter_article text link (some reply) = some true) ∧
    (pyLower (pyStrip reply) ≠ "yes" →
       filter_article text link (some reply) = some false) ∧
    filter_article text link none = none ∧
    (filter_article (clean_html env.parseOutcome) e.link env.filterReply ≠ some true →
       (process_entry env e titles db now cid).db = db ∧
       ∀ s ∈ (process_entry env e titles db now cid).steps,
         isAttempt s = false ∧ isInsert s = false ∧ ∀ u, s ≠ Step.generateCall u) := by
  refine ⟨?_, ?_, rfl, ?_⟩
  · intro h
    simp [filter_article, h]
  · intro h
    simp [filter_article, h]
  · intro hfil
    rcases process_entry_cases env e titles db now cid with
      ⟨hd, hpe⟩ | ⟨hd, hn, hpe⟩ | ⟨hd, hn, hpe⟩
    · exact ⟨by simp [hpe], by simp [hpe]⟩
    · refine ⟨by simp [hpe], ?_⟩
      intro s hs
      rw [hpe] at hs
      simp at hs
      subst hs
      exact ⟨rfl, rfl, by simp⟩
    · rcases entry_after_fetch_cases env e db now cid with
        ⟨hf, heq⟩ |
        ⟨hf, ⟨hfil2, heq⟩ | ⟨hfil2, _⟩⟩
      · refine ⟨by simp [hpe, heq], ?_⟩
        intro s hs
        simp [hpe, heq] at hs
        rcases hs with rfl | rfl <;> exact ⟨rfl, rfl, by simp⟩
      · refine ⟨by simp [hpe, heq], ?_⟩
        intro s hs
        simp [hpe, heq, fetchSteps] at hs
        rcases hs with rfl | rfl | rfl <;> exact ⟨rfl, rfl, by simp⟩
      · exact absurd hfil2 hfil

/-- Witness for C4: an affirmative reply with noise is accepted, a
non-affirmative one is rejected, and a rejecting verdict leaves the store
empty. -/
theorem relevance_contract_witness :
    filter_article "t" "l" (some " YES ") = some true ∧
    filter_article "t" "l" (some "maybe") = some false ∧
    (process_entry envFilterNo entryA [] [] 0 "@chan").db = [] :=
  ⟨(relevance_contract envFilterNo entryA [] [] 0 "@chan" "t" "l" " YES ").1
     (by decide),
   (relevance_contract envFilterNo entryA [] [] 0 "@chan" "t" "l" "maybe").2.1
     (by decide),
   ((relevance_contract envFilterNo entryA [] [] 0 "@chan" "t" "l" "x").2.2.2
     (by decide)).1⟩

/-- C8 counterexample: after a cycle whose feed pass raises, the next cycle
begins immediately: between beginCycle 0 and beginCycle 1 the trace holds
no waitNextHour, refuting that the next cycle begins only after waiting for
the hour boundary. -/
theorem scheduler_wait_skipped_counterexample :
    mainTrace [CycleOutcome.raisedDuringFeeds, CycleOutcome.ok] =
      [SchedStep.waitNextHour, SchedStep.beginCycle 0, SchedStep.processFeeds,
       SchedStep.raised, SchedStep.beginCycle 1, SchedStep.processFeeds,
       SchedStep.cleanup, SchedStep.waitNextHour] ∧
    SchedStep.waitNextHour ∉
      ((mainTrace [CycleOutcome.raisedDuringFeeds, CycleOutcome.ok]).drop 1).take 4 := by
  decide

/-- C8 corrected: an exception in a cycle is caught and the loop continues
to process every later cycle, but the wait sits inside the try: a raising
cycle performs no waitNextHour, so the next cycle begins immediately; only
a clean cycle ends with the wait. -/
theorem scheduler_exception_continues (cs : List CycleOutcome) :
    (∀ i, i < cs.length → SchedStep.beginCycle i ∈ mainTrace cs) ∧
    (∀ i c, c ≠ CycleOutcome.ok → SchedStep.waitNextHour ∉ mainIteration i c) ∧
    (∀ i, (mainIteration i CycleOutcome.ok).getLast? = some SchedStep.waitNextHour) := by
  refine ⟨?_, ?_, ?_⟩
  · intro i hi
    have h := mainLoopGo_begin_mem cs 0 i hi
    simp only [mainTrace, List.mem_cons]
    right
    simpa using h
  · intro i c hc
    cases c
    · exact absurd rfl hc
    · simp [mainIteration]
    · simp [mainIteration]
  · intro i
    rfl

/-- Witness for the corrected C8 at a concrete cycle list. -/
theorem scheduler_exception_continues_witness :
    SchedStep.beginCycle 1 ∈
      mainTrace [CycleOutcome.raisedDuringFeeds, CycleOutcome.ok] ∧
    SchedStep.waitNextHour ∉ mainIteration 0 CycleOutcome.raisedDuringFeeds :=
  ⟨(scheduler_exception_continues
      [CycleOutcome.raisedDuringFeeds, CycleOutcome.ok]).1 1 (by decide),
   (scheduler_exception_continues
      [CycleOutcome.raisedDuringFeeds, CycleOutcome.ok]).2.1 0
      CycleOutcome.raisedDuringFeeds (by decide)⟩

/-- C9: with a present image and photo delivery failing on every attempt,
the whole entry is skipped: the store is unchanged, no insert step happens,
and every delivery attempt is a photo send — there is no fallback to a
text-only publication. -/
theorem photo_failure_no_text_fallback (env : EntryEnv) (e : Entry)
    (titles : List String) (db : DB) (now : Int) (cid : String)
    (himg : truthyOpt env.imageResult = true)
    (hfail : ∀ k, env.send k = none) :
    (process_entry env e titles db now cid).db = db ∧
    (∀ s ∈ (process_entry env e titles db now cid).steps, isInsert s = false) ∧
    (∀ s ∈ (process_entry env e titles db now cid).steps,
       isAttempt s = true → ∃ k, s = Step.sendPhoto k) := by
  have hpub : (entryPublish env cid).result = none :=
    publishAttempts_result_none env.send env.imageResult cid [0, 1, 2]
      (fun k _ => hfail k)
  refine ⟨entry_db_unchanged env e titles db now cid hpub, ?_, ?_⟩
  · intro s hs
    rcases entry_steps_classification env e titles db now cid s hs with ⟨_, hins⟩
    cases hI : isInsert s with
    | false => rfl
    | true =>
      rcases hins hI with ⟨_, tl, htl⟩
      rw [hpub] at htl
      cases htl
  · intro s hs hatt
    rcases (entry_steps_classification env e titles db now cid s hs).1 hatt with ⟨k, rfl⟩
    exact ⟨k, by simp [attemptStep, himg]⟩

/-- Witness for C9 at a concrete environment with an image and a dead
delivery channel. -/
theorem photo_failure_no_text_fallback_witness :
    (process_entry envPhotoFail entryA [] [] 0 "@chan").db = [] ∧
    (∃ k, Step.sendPhoto 0 = Step.sendPhoto k) :=
  ⟨(photo_failure_no_text_fallback envPhotoFail entryA [] [] 0 "@chan"
      (by decide) (fun _ => rfl)).1,
   (photo_failure_no_text_fallback envPhotoFail entryA [] [] 0 "@chan"
      (by decide) (fun _ => rfl)).2.2 (Step.sendPhoto 0) (by decide) (by decide)⟩

/-- C10: a non-IntegrityError failure of the post-publish insert is absorbed
at the per-entry boundary: the store stays unchanged even though delivery
succeeded and returned a permalink, so the link is still absent and a later
cycle reprocesses the same entry from the novelty call on. -/
theorem insert_fault_reprocess (env env2 : EntryEnv) (e : Entry)
    (titles titles2 : List String) (db : DB) (now now2 : Int) (cid : String)
    (hfault : env.insertFault = true)
    (hreach : Step.insert e.link ∈ (process_entry env e titles db now cid).steps) :
    (process_entry env e titles db now cid).db = db ∧
    (∃ tlink, (entryPublish env cid).result = some tlink ∧ tlink ≠ "") ∧
    Step.noveltyCall e.title ∈
      (process_entry env2 e titles2 (process_entry env e titles db now cid).db
         now2 cid).steps := by
  obtain ⟨hd, hex, hdb⟩ := entry_insert_spec env e titles db now cid hreach
  have hdb2 := hdb hfault
  refine ⟨hdb2, hex, ?_⟩
  rw [hdb2]
  exact entry_novelty_first env2 e titles2 db now2 cid hd

/-- Witness for C10: the faulting insert leaves an empty store and the next
cycle calls the novelty classifier for the same entry again. -/
theorem insert_fault_reprocess_witness :
    (process_entry envInsertFault entryA [] [] 0 "@chan").db = [] ∧
    Step.noveltyCall "X launches Y" ∈
      (process_entry envHappy entryA []
         (process_entry envInsertFault entryA [] [] 0 "@chan").db 1 "@chan").steps := by
  have h := insert_fault_reprocess envInsertFault envHappy entryA [] [] [] 0 1 "@chan"
    rfl (by decide)
  exact ⟨h.1, h.2.2⟩
